import Mathlib

/-!
Verification of the House_Price_end_to_end repository core: a shallow
embedding of the strategy classes in src/ (data splitting, feature
engineering, ingestion, model building, model evaluation) together with
theorems settling the specification claims about them.

Tabular data is modelled columnarly: a DataFrame is a pandas-style frame
with a row-label index and an ordered list of named columns; cell values
are either numeric (modelled by rationals) or categorical (strings).
Library calls whose internals are outside the repository (numpy RNG
shuffling, square roots, least-squares fitting) enter as explicit
function parameters or as abstract outcome parameters; everything the
repository itself does is translated line by line.
-/

deriving instance DecidableEq for Except

namespace HousePrice

/-- A cell value of a tabular dataset: numeric or categorical. -/
inductive Value where
  | num (q : ℚ)
  | cat (s : String)
deriving DecidableEq, Repr

/-- A pandas Series: row labels plus values, positionally aligned. -/
structure Series where
  index : List Nat
  values : List Value
deriving DecidableEq, Repr

/-- A pandas DataFrame: row labels plus an ordered list of named columns,
all of the same length as the index. -/
structure DataFrame where
  index : List Nat
  cols : List (String × List Value)
deriving DecidableEq, Repr

namespace DataFrame

/-- Number of rows. -/
def nrows (df : DataFrame) : Nat := df.index.length

/-- Column names in order. -/
def columnNames (df : DataFrame) : List String := df.cols.map Prod.fst

/-- Well-formedness: distinct row labels and uniform column length. -/
def WF (df : DataFrame) : Prop :=
  df.index.Nodup ∧ ∀ p ∈ df.cols, (Prod.snd p).length = df.nrows

/-- Look up a column by name (first match, as pandas does for selection). -/
def getColumn? (df : DataFrame) (c : String) : Option (List Value) :=
  (df.cols.find? (fun p => p.1 == c)).map Prod.snd

/-- pandas column assignment `df[c] = vs`: replace an existing column in
place, else append a new column at the end. -/
def setColumn (df : DataFrame) (c : String) (vs : List Value) : DataFrame :=
  if df.cols.any (fun p => p.1 == c) then
    { df with cols := df.cols.map (fun p => if p.1 == c then (c, vs) else p) }
  else
    { df with cols := df.cols ++ [(c, vs)] }

/-- `df.drop(columns=cs)`: remove every column whose name is listed. -/
def dropColumns (df : DataFrame) (cs : List String) : DataFrame :=
  { df with cols := df.cols.filter (fun p => !(cs.contains p.1)) }

end DataFrame

/-- Extract the rationals of a numeric column; errors on a categorical
cell (numpy/sklearn raise a TypeError when arithmetic hits strings). -/
def numColumn (vs : List Value) : Except String (List ℚ) :=
  vs.foldr (fun v acc =>
    match v, acc with
    | Value.num q, Except.ok qs => Except.ok (q :: qs)
    | Value.cat _, _ => Except.error "TypeError: unsupported operand type for arithmetic: str"
    | _, Except.error e => Except.error e) (Except.ok [])

theorem numColumn_length {vs : List Value} {qs : List ℚ}
    (h : numColumn vs = Except.ok qs) : qs.length = vs.length := by
  induction vs generalizing qs with
  | nil => simp [numColumn] at h; simp [← h]
  | cons v vs ih =>
    match v with
    | Value.cat s => simp [numColumn] at h
    | Value.num q =>
      simp only [numColumn, List.foldr] at h ih
      cases hrec : vs.foldr (fun v acc =>
        match v, acc with
        | Value.num q, Except.ok qs => Except.ok (q :: qs)
        | Value.cat _, _ => Except.error "TypeError: unsupported operand type for arithmetic: str"
        | _, Except.error e => Except.error e) (Except.ok ([] : List ℚ)) with
      | ok qs' =>
        rw [hrec] at h
        simp at h
        subst h
        simp [ih hrec]
      | error e =>
        rw [hrec] at h
        simp at h

/-! ### data_splitter.py -/

/-- One step of a linear congruential generator: the executable stand-in
for the numpy pseudo-random stream seeded by `random_state` (the RNG
internals are external library code; all the repository relies on is that
the stream is a pure function of the seed). -/
def lcgNext (r : Nat) : Nat := (r * 1103515245 + 12345) % 2 ^ 31

/-- Seeded shuffle, with the number of draws still to make as the first
argument: draw one element of the remaining list at a pseudo-random
position, then recurse on the rest. -/
def fyShuffleAux : Nat → Nat → List Nat → List Nat
  | 0, _, _ => []
  | _, _, [] => []
  | k + 1, r, x :: xs =>
    have hj : r % (x :: xs).length < (x :: xs).length :=
      Nat.mod_lt _ (by simp)
    let a := (x :: xs).get ⟨r % (x :: xs).length, hj⟩
    a :: fyShuffleAux k (lcgNext r) ((x :: xs).erase a)

/-- Seeded shuffle: repeatedly draw one element of the remaining list at
a pseudo-random position. Produces a permutation of its input. -/
def fyShuffle (r : Nat) (l : List Nat) : List Nat := fyShuffleAux l.length r l

theorem fyShuffleAux_perm :
    ∀ (n r : Nat) (l : List Nat), l.length = n → (fyShuffleAux n r l).Perm l := by
  intro n
  induction n with
  | zero =>
    intro r l hl
    match l with
    | [] => simp [fyShuffleAux]
    | x :: xs => simp at hl
  | succ k ih =>
    intro r l hl
    match l with
    | [] => simp at hl
    | x :: xs =>
      rw [fyShuffleAux]
      have hj : r % (x :: xs).length < (x :: xs).length := Nat.mod_lt _ (by simp)
      set a := (x :: xs).get ⟨r % (x :: xs).length, hj⟩ with hadef
      have ha : a ∈ x :: xs := List.get_mem _ _ _
      have hlen : ((x :: xs).erase a).length = k := by
        rw [List.length_erase_of_mem ha]
        simp only [List.length_cons] at hl ⊢
        omega
      have htail := ih (lcgNext r) ((x :: xs).erase a) hlen
      exact ((htail.cons a).trans (List.perm_cons_erase ha).symm)

theorem fyShuffle_perm (r : Nat) (l : List Nat) : (fyShuffle r l).Perm l :=
  fyShuffleAux_perm l.length r l rfl

/-- The seeded permutation of row positions `0, ..., n-1` used by the
shuffling train/test split. -/
def permutation (seed n : Nat) : List Nat := fyShuffle (lcgNext seed) (List.range n)

theorem permutation_perm_range (seed n : Nat) :
    (permutation seed n).Perm (List.range n) := fyShuffle_perm _ _

theorem permutation_nodup (seed n : Nat) : (permutation seed n).Nodup :=
  (permutation_perm_range seed n).nodup_iff.mpr (List.nodup_range n)

theorem permutation_length (seed n : Nat) : (permutation seed n).length = n := by
  simpa using (permutation_perm_range seed n).length_eq

theorem permutation_mem_lt (seed n : Nat) {i : Nat}
    (h : i ∈ permutation seed n) : i < n := by
  have := (permutation_perm_range seed n).mem_iff.mp h
  simpa using this

/-- Row selection by positions, keeping the original row labels, as a
pandas positional indexer does. -/
def DataFrame.selectRows (df : DataFrame) (idxs : List Nat) : DataFrame :=
  { index := idxs.map (fun i => df.index.getD i 0),
    cols := df.cols.map (fun p => (p.1, idxs.map (fun i => p.2.getD i (Value.num 0)))) }

/-- Row selection by positions on a Series, keeping the labels. -/
def Series.selectRows (s : Series) (idxs : List Nat) : Series :=
  { index := idxs.map (fun i => s.index.getD i 0),
    values := idxs.map (fun i => s.values.getD i (Value.num 0)) }

/-- sklearn test-set size for a fractional `test_size`: ceil. -/
def nTestOf (ts : ℚ) (n : Nat) : Nat := (Int.ceil (ts * n)).toNat

/-- sklearn train-set size for the complementary fraction: floor. -/
def nTrainOf (ts : ℚ) (n : Nat) : Nat := (Int.floor ((1 - ts) * n)).toNat

/-- `SimpleTrainTestSplitStrategy(test_size, random_state)`. -/
structure SimpleTrainTestSplitStrategy where
  test_size : ℚ := 1/5
  random_state : Nat := 42
deriving DecidableEq, Repr

/-- The 4-tuple returned by `split_data`. -/
structure SplitResult where
  X_train : DataFrame
  X_test : DataFrame
  y_train : Series
  y_test : Series
deriving DecidableEq, Repr

/-- `SimpleTrainTestSplitStrategy.split_data`: drop the target column to
form X, take the target column as y, then partition rows by the seeded
permutation — test takes the first `nTest` shuffled positions, train the
next `nTrain`. A missing target column raises a KeyError. -/
def SimpleTrainTestSplitStrategy.split_data (s : SimpleTrainTestSplitStrategy)
    (df : DataFrame) (target : String) : Except String SplitResult :=
  if df.columnNames.contains target then
    let X := df.dropColumns [target]
    let y : Series := ⟨df.index, (df.getColumn? target).getD []⟩
    let n := df.nrows
    let nTest := nTestOf s.test_size n
    let nTrain := nTrainOf s.test_size n
    let perm := permutation s.random_state n
    let testIdx := perm.take nTest
    let trainIdx := (perm.drop nTest).take nTrain
    Except.ok ⟨X.selectRows trainIdx, X.selectRows testIdx,
               y.selectRows trainIdx, y.selectRows testIdx⟩
  else
    Except.error ("KeyError: " ++ target)

/-- The single abstract operation of a `DataSplittingStrategy`. -/
def DataSplittingStrategy : Type :=
  DataFrame → String → Except String SplitResult

/-- The `DataSplitter` context: holds the current strategy. -/
structure DataSplitter where
  strategy : DataSplittingStrategy

/-- `DataSplitter.set_strategy`: swap the stored strategy. -/
def DataSplitter.set_strategy (c : DataSplitter) (s : DataSplittingStrategy) :
    DataSplitter := { c with strategy := s }

/-- `DataSplitter.split`: delegate to the current strategy. -/
def DataSplitter.split (c : DataSplitter) (df : DataFrame) (target : String) :
    Except String SplitResult := c.strategy df target

/-! ### feature_engineering.py -/

/-- Arithmetic mean of a rational column. -/
def meanQ (xs : List ℚ) : ℚ := xs.sum / xs.length

/-- Population variance, as StandardScaler computes it. -/
def varQ (xs : List ℚ) : ℚ := meanQ (xs.map (fun x => (x - meanQ xs) ^ 2))

/-- StandardScaler.fit_transform on one column: subtract the column mean
and divide by the column standard deviation (a zero scale is replaced by
one, as sklearn does). The square root is an external numeric routine,
passed in as `sqrtQ`. -/
def standardize (sqrtQ : ℚ → ℚ) (xs : List ℚ) : List ℚ :=
  let m := meanQ xs
  let s := sqrtQ (varQ xs)
  let s' := if s = 0 then 1 else s
  xs.map (fun x => (x - m) / s')

/-- Minimum of a nonempty rational column (0 on an empty one). -/
def listMin : List ℚ → ℚ
  | [] => 0
  | x :: xs => xs.foldl min x

/-- Maximum of a nonempty rational column (0 on an empty one). -/
def listMax : List ℚ → ℚ
  | [] => 0
  | x :: xs => xs.foldl max x

/-- MinMaxScaler.fit_transform on one column with output range
`[lo, hi]`: rescale by the observed min and max (a zero range is replaced
by one, as sklearn does). -/
def minmaxScale (lo hi : ℚ) (xs : List ℚ) : List ℚ :=
  let mn := listMin xs
  let mx := listMax xs
  let range := mx - mn
  let range' := if range = 0 then 1 else range
  xs.map (fun x => (x - mn) / range' * (hi - lo) + lo)

/-- The shared shape of the numeric strategies in feature_engineering.py:
`df_transformed = df.copy()`, then for each listed feature read the
column from the original `df`, transform it with `g`, and assign it into
`df_transformed`. A missing feature raises a KeyError. -/
def setFeatureColumns (df0 : DataFrame) (g : List Value → Except String (List Value)) :
    List String → DataFrame → Except String DataFrame
  | [], acc => Except.ok acc
  | f :: fs, acc =>
    match df0.getColumn? f with
    | none => Except.error ("KeyError: " ++ f)
    | some vs =>
      match g vs with
      | Except.error e => Except.error e
      | Except.ok ws => setFeatureColumns df0 g fs (acc.setColumn f ws)

/-- `LogTransformation(features)`. -/
structure LogTransformation where
  features : List String
deriving DecidableEq, Repr

/-- `LogTransformation.apply_transformation`: assign
`np.log1p(df[feature])` into a copy of `df` for each listed feature; the
scalar `log1p` itself is an external numpy routine, passed in. -/
def LogTransformation.apply_transformation (log1p : ℚ → ℚ) (t : LogTransformation)
    (df : DataFrame) : Except String DataFrame :=
  setFeatureColumns df
    (fun vs => (numColumn vs).map (fun xs => (xs.map log1p).map Value.num))
    t.features df

/-- `StandardScaling(features)`. -/
structure StandardScaling where
  features : List String
deriving DecidableEq, Repr

/-- `StandardScaling.apply_transformation`: assign
`scaler.fit_transform(df[features])` into a copy of `df`, column by
column (fit parameters are learned from the data passed at call time). -/
def StandardScaling.apply_transformation (sqrtQ : ℚ → ℚ) (t : StandardScaling)
    (df : DataFrame) : Except String DataFrame :=
  setFeatureColumns df
    (fun vs => (numColumn vs).map (fun xs => (standardize sqrtQ xs).map Value.num))
    t.features df

/-- `MinMaxScaling(features, feature_range=(0, 1))`. -/
structure MinMaxScaling where
  features : List String
  feature_range : ℚ × ℚ := (0, 1)
deriving DecidableEq, Repr

/-- `MinMaxScaling.apply_transformation`: assign
`scaler.fit_transform(df[features])` into a copy of `df`, column by
column. -/
def MinMaxScaling.apply_transformation (t : MinMaxScaling)
    (df : DataFrame) : Except String DataFrame :=
  setFeatureColumns df
    (fun vs => (numColumn vs).map
      (fun xs => (minmaxScale t.feature_range.1 t.feature_range.2 xs).map Value.num))
    t.features df

/-- Lexicographic comparison of character data. -/
def charListLe : List Char → List Char → Bool
  | [], _ => true
  | _ :: _, [] => false
  | a :: as, b :: bs => if a = b then charListLe as bs else decide (a < b)

/-- Lexicographic comparison of strings. -/
def strLe (a b : String) : Bool := charListLe a.data b.data

/-- Ordering used by sklearn when it sorts the observed categories of a
column (numbers by value; strings lexicographically). -/
def Value.leB : Value → Value → Bool
  | Value.num a, Value.num b => decide (a ≤ b)
  | Value.num _, Value.cat _ => true
  | Value.cat _, Value.num _ => false
  | Value.cat a, Value.cat b => strLe a b

/-- Insert into a sorted list of categories. -/
def sortedInsert (v : Value) : List Value → List Value
  | [] => [v]
  | c :: cs => if Value.leB v c then v :: c :: cs else c :: sortedInsert v cs

/-- The sorted distinct categories OneHotEncoder observes in a column. -/
def categoriesOf (vs : List Value) : List Value :=
  vs.dedup.foldr sortedInsert []

/-- The string sklearn renders a category as in a feature name. -/
def Value.keyStr : Value → String
  | Value.num q => toString q
  | Value.cat s => s

/-- The indicator columns OneHotEncoder(drop="first") produces for one
feature: one 0/1 column named `f_category` per observed category except
the first (reference) one. -/
def encodeFeature (f : String) (vs : List Value) : List (String × List Value) :=
  ((categoriesOf vs).drop 1).map (fun c =>
    (f ++ "_" ++ c.keyStr, vs.map (fun v => if v = c then Value.num 1 else Value.num 0)))

/-- `encoder.fit_transform(df[features])` with
`get_feature_names_out(features)`: the whole encoded block, feature by
feature. A missing feature raises a KeyError. -/
def encodedBlock (df : DataFrame) : List String → Except String (List (String × List Value))
  | [] => Except.ok []
  | f :: fs =>
    match df.getColumn? f with
    | none => Except.error ("KeyError: " ++ f)
    | some vs => (encodedBlock df fs).map (fun rest => encodeFeature f vs ++ rest)

/-- `OneHotEncoding(features)`. -/
structure OneHotEncoding where
  features : List String
deriving DecidableEq, Repr

/-- `OneHotEncoding.apply_transformation`: build the encoded block, drop
the encoded source columns from a copy of `df`, reset its index, and
concatenate the block on the right (both sides carry a fresh positional
index, so the concatenation is positional). -/
def OneHotEncoding.apply_transformation (t : OneHotEncoding)
    (df : DataFrame) : Except String DataFrame :=
  (encodedBlock df t.features).map (fun enc =>
    let base := df.dropColumns t.features
    { index := List.range df.nrows, cols := base.cols ++ enc })

/-- The single abstract operation of a `FeatureEngineeringStrategy`. -/
def FeatureEngineeringStrategy : Type := DataFrame → Except String DataFrame

/-- The `FeatureEngineer` context: holds the current strategy. -/
structure FeatureEngineer where
  strategy : FeatureEngineeringStrategy

/-- `FeatureEngineer.set_strategy`: swap the stored strategy. -/
def FeatureEngineer.set_strategy (c : FeatureEngineer) (s : FeatureEngineeringStrategy) :
    FeatureEngineer := { c with strategy := s }

/-- `FeatureEngineer.apply_feature_engineering`: delegate to the current
strategy. -/
def FeatureEngineer.apply_feature_engineering (c : FeatureEngineer)
    (df : DataFrame) : Except String DataFrame := c.strategy df

/-! ### Object-level view of the transformations

Each strategy body starts with `df_transformed = df.copy()` and mutates
only the copy. To speak about the callers object, transformations are
also run over an explicit object store: references are store positions,
`copy` allocates a fresh object, and the result is a reference to the new
object. -/

/-- An object store of dataframes; a reference is a position. -/
abbrev Store : Type := List DataFrame

/-- Dereference (out-of-range reads give an empty frame). -/
def readRef (st : Store) (r : Nat) : DataFrame :=
  (st[r]?).getD ⟨[], []⟩

/-- Run a strategy body over the store: `df.copy()` allocates a new
object initialised from the referenced frame, every column assignment of
the body lands in that new object, and a reference to it is returned. -/
def runOnCopy (body : DataFrame → Except String DataFrame) (st : Store) (r : Nat) :
    Except String (Store × Nat) :=
  match body (readRef st r) with
  | Except.ok out => Except.ok (st ++ [out], st.length)
  | Except.error e => Except.error e

/-- `LogTransformation.apply_transformation` over the store. -/
def LogTransformation.applyStore (log1p : ℚ → ℚ) (t : LogTransformation) :
    Store → Nat → Except String (Store × Nat) :=
  runOnCopy (t.apply_transformation log1p)

/-- `StandardScaling.apply_transformation` over the store. -/
def StandardScaling.applyStore (sqrtQ : ℚ → ℚ) (t : StandardScaling) :
    Store → Nat → Except String (Store × Nat) :=
  runOnCopy (t.apply_transformation sqrtQ)

/-- `MinMaxScaling.apply_transformation` over the store. -/
def MinMaxScaling.applyStore (t : MinMaxScaling) :
    Store → Nat → Except String (Store × Nat) :=
  runOnCopy t.apply_transformation

/-- `OneHotEncoding.apply_transformation` over the store. -/
def OneHotEncoding.applyStore (t : OneHotEncoding) :
    Store → Nat → Except String (Store × Nat) :=
  runOnCopy t.apply_transformation

/-! ### ingest_data.py -/

/-- The concrete ingestors the factory can hand out. -/
inductive DataIngestor where
  | zipDataIngestor
deriving DecidableEq, Repr

/-- Python's `str.endswith`: a suffix test on the character data. -/
def strEndsWith (s suff : String) : Bool := suff.data.isSuffixOf s.data

/-- `ZipDataIngestor.ingest`: reject non-.zip paths, extract the archive
(the extraction is file-system work; the resulting directory listing
enters as `extractedListing`), keep the .csv entries, and accept exactly
one of them. `readCsv` is the external CSV reader. -/
def ZipDataIngestor.ingest (extractedListing : List String)
    (readCsv : String → DataFrame) (file_path : String) : Except String DataFrame :=
  if ¬ strEndsWith file_path ".zip" then
    Except.error "The provided file is not a .zip file"
  else
    let csv_files := extractedListing.filter (fun f => strEndsWith f ".csv")
    if csv_files.length = 0 then
      Except.error "No CSV file found in the extracted data"
    else if csv_files.length > 1 then
      Except.error "Multipel CSV files found. Please specify which one to use."
    else
      Except.ok (readCsv ("extracted_data/" ++ csv_files.headD ""))

/-- `DataIngestorFactory.get_data_ingestor`: only ".zip" is supported. -/
def DataIngestorFactory.get_data_ingestor (file_extension : String) :
    Except String DataIngestor :=
  if file_extension = ".zip" then Except.ok DataIngestor.zipDataIngestor
  else Except.error ("No Ingestor available for file extension: " ++ file_extension)

/-! ### model_building.py and steps/model_building_step.py -/

/-- The sklearn transformers the two model-building functions mention. -/
inductive Transformer where
  | simpleImputer (strategy : String)
  | oneHotEncoder (handle_unknown : String)
  | standardScaler
deriving DecidableEq, Repr

/-- The only estimator used. -/
inductive Estimator where
  | linearRegression
deriving DecidableEq, Repr

/-- The ColumnTransformer of the model-building step: one transformer
chain per dtype-selected column list. -/
structure ColumnTransformerSpec where
  numerical_transformer : List Transformer
  numerical_cols : List String
  categorical_transformer : List Transformer
  categorical_cols : List String
deriving DecidableEq, Repr

/-- A named step of an sklearn Pipeline. -/
inductive PipeStep where
  | preprocessor (ct : ColumnTransformerSpec)
  | transformer (t : Transformer)
  | estimator (e : Estimator)
deriving DecidableEq, Repr

/-- An sklearn Pipeline as the repository configures it. -/
structure SkPipeline where
  steps : List (String × PipeStep)
deriving DecidableEq, Repr

/-- All transformers a pipeline applies before its estimator. -/
def SkPipeline.transformers (p : SkPipeline) : List Transformer :=
  p.steps.foldr (fun s acc =>
    match s.2 with
    | PipeStep.preprocessor ct => ct.numerical_transformer ++ ct.categorical_transformer ++ acc
    | PipeStep.transformer t => t :: acc
    | PipeStep.estimator _ => acc) []

/-- pandas dtype selection: a column has object dtype when it holds a
string cell. -/
def isObjectDtype (vs : List Value) : Bool :=
  vs.any (fun v => match v with | Value.cat _ => true | Value.num _ => false)

/-- `X.select_dtypes(include=['object', 'category']).columns`. -/
def DataFrame.objectColumns (df : DataFrame) : List String :=
  (df.cols.filter (fun p => isObjectDtype p.2)).map Prod.fst

/-- `X.select_dtypes(exclude=['object', 'category']).columns`. -/
def DataFrame.nonObjectColumns (df : DataFrame) : List String :=
  (df.cols.filter (fun p => ¬ isObjectDtype p.2)).map Prod.fst

/-- The pipeline constructed by `model_building_step` (lines 44-65):
mean imputation on the numeric columns; mode imputation followed by
one-hot encoding on the categorical columns; then a linear regression. -/
def model_building_step_pipeline (X_train : DataFrame) : SkPipeline :=
  let categorical_cols := X_train.objectColumns
  let numerical_cols := X_train.nonObjectColumns
  { steps := [
      ("preprocessor", PipeStep.preprocessor
        { numerical_transformer := [Transformer.simpleImputer "mean"],
          numerical_cols := numerical_cols,
          categorical_transformer := [Transformer.simpleImputer "most_frequent",
                                      Transformer.oneHotEncoder "ignore"],
          categorical_cols := categorical_cols }),
      ("model", PipeStep.estimator Estimator.linearRegression) ] }

/-- The pipeline constructed by
`LinearRegressionStrategy.build_and_train_model` (model_building.py):
a standard scaler, then a linear regression — no imputation and no
encoding. -/
def LinearRegressionStrategy.pipeline : SkPipeline :=
  { steps := [("scaler", PipeStep.transformer Transformer.standardScaler),
              ("model", PipeStep.estimator Estimator.linearRegression)] }

/-- A fitted pipeline: its configuration plus the parameters the external
least-squares fit learned. -/
structure FittedPipeline where
  spec : SkPipeline
  learned : List ℚ

/-- `LinearRegressionStrategy.build_and_train_model`: construct the
scaler+regression pipeline and fit it once on the given data; the
numeric fit itself is external library work, entering as `lstsq`. The
isinstance guards of the source are enforced by the embedding types. -/
def LinearRegressionStrategy.build_and_train_model
    (lstsq : SkPipeline → DataFrame → Series → List ℚ)
    (X_train : DataFrame) (y_train : Series) : FittedPipeline :=
  ⟨LinearRegressionStrategy.pipeline,
   lstsq LinearRegressionStrategy.pipeline X_train y_train⟩

/-- The attributes a fitted sklearn ColumnTransformer exposes; the
guarded block of the step asks for "transformer_", which is not among
them (the fitted attribute is called "transformers_"). -/
def columnTransformerAttrs : List String := ["transformers_"]

/-- Attribute lookup on the fitted preprocessor. -/
def getPreprocessorAttr (name : String) : Except String Unit :=
  if columnTransformerAttrs.contains name then Except.ok ()
  else Except.error ("AttributeError: ColumnTransformer has no attribute " ++ name)

/-- The guarded (`try:`) block of `model_building_step`: fit the pipeline
(outcome of the external fit enters as `fitOutcome`), then compute the
expected columns through the `transformer_` attribute of the fitted
preprocessor. -/
def model_building_step_tryBlock (fitOutcome : Except String Unit) :
    Except String Unit := do
  fitOutcome
  getPreprocessorAttr "transformer_"

/-- What `model_building_step` hands back: the constructed pipeline, and
the error message its `except` clause logged, if any. -/
structure StepOutcome where
  pipeline : SkPipeline
  loggedError : Option String
deriving DecidableEq, Repr

/-- `model_building_step` (lines 25-91): construct the pipeline, run the
guarded training block, catch and log any exception it raises, and
return the pipeline in every case. An uncaught exception would surface
as `Except.error`; the step never produces one. -/
def model_building_step (X_train : DataFrame) (y_train : Series)
    (fitOutcome : Except String Unit) : Except String StepOutcome :=
  let _ := y_train
  let pipeline := model_building_step_pipeline X_train
  match model_building_step_tryBlock fitOutcome with
  | Except.ok _ => Except.ok ⟨pipeline, none⟩
  | Except.error e => Except.ok ⟨pipeline, some e⟩

/-! ### model_evaluator.py -/

/-- A trained regressor, used only through its predict operation. -/
structure RegressorModel where
  predict : DataFrame → List ℚ

/-- A Python value passed positionally to an sklearn metric function. -/
inductive NpArg where
  | vec (xs : List ℚ)
  | pair (a b : NpArg)
deriving DecidableEq, Repr

/-- `sklearn.metrics.mean_squared_error`, with the Python call arity made
explicit: the function has two required positional parameters `y_true`
and `y_pred`; a call that does not supply both raises a TypeError before
the body runs. -/
def mean_squared_error : List NpArg → Except String ℚ
  | [NpArg.vec yTrue, NpArg.vec yPred] =>
    if yTrue.length = yPred.length ∧ yTrue.length ≠ 0 then
      Except.ok (meanQ ((yTrue.zip yPred).map (fun p => (p.1 - p.2) ^ 2)))
    else Except.error "ValueError: inconsistent numbers of samples"
  | [_, _] => Except.error "ValueError: could not convert input to a numeric array"
  | _ => Except.error "TypeError: mean_squared_error missing 1 required positional argument: y_pred"

/-- `sklearn.metrics.r2_score`. -/
def r2_score (yTrue yPred : List ℚ) : Except String ℚ :=
  if yTrue.length = yPred.length ∧ yTrue.length ≠ 0 then
    let ssRes := ((yTrue.zip yPred).map (fun p => (p.1 - p.2) ^ 2)).sum
    let ssTot := (yTrue.map (fun y => (y - meanQ yTrue) ^ 2)).sum
    if ssTot = 0 then Except.ok (if ssRes = 0 then 1 else 0)
    else Except.ok (1 - ssRes / ssTot)
  else Except.error "ValueError: inconsistent numbers of samples"

/-- The name-to-number metrics mapping. -/
def Metrics : Type := List (String × ℚ)

/-- `RegressionModelEvaluationStrategy.evaluate_model`: predict on
X_test, then `mse = mean_squared_error((y_test, y_pred))` — one tuple
argument, exactly as the source calls it — then
`r2 = r2_score(y_test, y_pred)`, then the metrics dictionary. -/
def RegressionModelEvaluationStrategy.evaluate_model (model : RegressorModel)
    (X_test : DataFrame) (y_test : List ℚ) : Except String Metrics := do
  let y_pred := model.predict X_test
  let mse ← mean_squared_error [NpArg.pair (NpArg.vec y_test) (NpArg.vec y_pred)]
  let r2 ← r2_score y_test y_pred
  Except.ok [("Mean Squared Error", mse), ("R-Squared", r2)]

/-- The single abstract operation of a `ModelEvaluationStrategy`. -/
def ModelEvaluationStrategy : Type :=
  RegressorModel → DataFrame → List ℚ → Except String Metrics

/-- The `ModelEvaluator` context: holds the current strategy. -/
structure ModelEvaluator where
  strategy : ModelEvaluationStrategy

/-- `ModelEvaluator.set_strategy`: swap the stored strategy. -/
def ModelEvaluator.set_strategy (c : ModelEvaluator) (s : ModelEvaluationStrategy) :
    ModelEvaluator := { c with strategy := s }

/-- `ModelEvaluator.evaluate`: delegate to the current strategy. -/
def ModelEvaluator.evaluate (c : ModelEvaluator) (model : RegressorModel)
    (X_test : DataFrame) (y_test : List ℚ) : Except String Metrics :=
  c.strategy model X_test y_test

/-! ### Column-level helper lemmas -/

theorem getColumn?_mem {df : DataFrame} {c : String} {vs : List Value}
    (h : df.getColumn? c = some vs) : (c, vs) ∈ df.cols := by
  unfold DataFrame.getColumn? at h
  cases hf : df.cols.find? (fun p => p.1 == c) with
  | none => simp [hf] at h
  | some p =>
    simp only [hf, Option.map] at h
    have hmem := List.mem_of_find?_eq_some hf
    have hp : p.1 = c := by simpa using List.find?_some hf
    obtain ⟨a, b⟩ := p
    simp at h hp
    subst h; subst hp
    exact hmem

theorem getColumn?_mem_names {df : DataFrame} {c : String} {vs : List Value}
    (h : df.getColumn? c = some vs) : c ∈ df.columnNames := by
  have := getColumn?_mem h
  exact List.mem_map.mpr ⟨(c, vs), this, rfl⟩

theorem getColumn?_of_mem_names {df : DataFrame} {c : String}
    (h : c ∈ df.columnNames) : ∃ vs, df.getColumn? c = some vs := by
  unfold DataFrame.getColumn?
  obtain ⟨p, hp, hpc⟩ := List.mem_map.mp h
  have : (df.cols.find? (fun p => p.1 == c)).isSome := by
    rw [List.find?_isSome]
    exact ⟨p, hp, by simp [hpc]⟩
  cases hf : df.cols.find? (fun p => p.1 == c) with
  | none => rw [hf] at this; simp at this
  | some q => exact ⟨q.2, by simp [hf]⟩

theorem setColumn_index (df : DataFrame) (c : String) (vs : List Value) :
    (df.setColumn c vs).index = df.index := by
  unfold DataFrame.setColumn; split <;> rfl

theorem setColumn_names_of_mem {df : DataFrame} {c : String}
    (h : c ∈ df.columnNames) (vs : List Value) :
    (df.setColumn c vs).columnNames = df.columnNames := by
  obtain ⟨p, hp, hpc⟩ := List.mem_map.mp h
  unfold DataFrame.setColumn
  have hany : df.cols.any (fun p => p.1 == c) = true := by
    rw [List.any_eq_true]
    exact ⟨p, hp, by simp [hpc]⟩
  rw [if_pos hany]
  simp only [DataFrame.columnNames, List.map_map]
  apply List.map_congr_left
  intro q _
  by_cases hq : q.1 = c
  · simp [hq]
  · simp [hq]

theorem setColumn_lengths {df : DataFrame} {c : String} {vs : List Value} {n : Nat}
    (hvs : vs.length = n) (hall : ∀ p ∈ df.cols, (Prod.snd p).length = n) :
    ∀ p ∈ (df.setColumn c vs).cols, (Prod.snd p).length = n := by
  unfold DataFrame.setColumn
  split
  · intro p hp
    obtain ⟨q, hq, he⟩ := List.mem_map.mp hp
    by_cases hc : q.1 = c
    · simp [hc] at he; rw [← he]; exact hvs
    · simp [hc] at he; rw [← he]; exact hall q hq
  · intro p hp
    rcases List.mem_append.mp hp with hp | hp
    · exact hall p hp
    · simp at hp; rw [hp]; exact hvs

theorem find?_map_replace (cols : List (String × List Value)) (c c' : String)
    (vs : List Value) (h : c' ≠ c) :
    (cols.map (fun p => if p.1 == c then (c, vs) else p)).find? (fun p => p.1 == c')
      = cols.find? (fun p => p.1 == c') := by
  induction cols with
  | nil => rfl
  | cons p t ih =>
    simp only [List.map_cons]
    by_cases hc : p.1 = c
    · have e1 : (if (p.1 == c) = true then (c, vs) else p) = (c, vs) :=
        if_pos (by simp [hc])
      have h2 : ((c : String) == c') = false := by
        simp only [beq_eq_false_iff_ne, ne_eq]
        exact fun he => h he.symm
      have h1 : (p.1 == c') = false := by rw [hc]; exact h2
      simp only [e1, List.find?, h1, h2]
      exact ih
    · have e1 : (if (p.1 == c) = true then (c, vs) else p) = p :=
        if_neg (by simp [hc])
      simp only [e1]
      by_cases hc' : p.1 = c'
      · simp only [List.find?, show (p.1 == c') = true by simp [hc']]
      · simp only [List.find?, show (p.1 == c') = false by simp [hc']]
        exact ih

theorem getColumn?_setColumn_ne {df : DataFrame} {c c' : String} {vs : List Value}
    (h : c' ≠ c) : (df.setColumn c vs).getColumn? c' = df.getColumn? c' := by
  unfold DataFrame.setColumn DataFrame.getColumn?
  split
  · rw [find?_map_replace _ _ _ _ h]
  · rw [List.find?_append]
    have : ([(c, vs)].find? (fun p => p.1 == c')) = none := by
      simp; exact fun he => h he.symm
    rw [this, Option.or_none]

theorem setFeatureColumns_spec {df0 : DataFrame} {g : List Value → Except String (List Value)}
    (hg : ∀ vs ws, g vs = Except.ok ws → ws.length = vs.length)
    (hwf : ∀ p ∈ df0.cols, (Prod.snd p).length = df0.nrows) :
    ∀ (fs : List String) (acc out : DataFrame),
      setFeatureColumns df0 g fs acc = Except.ok out →
      acc.index = df0.index →
      acc.columnNames = df0.columnNames →
      (∀ p ∈ acc.cols, (Prod.snd p).length = df0.nrows) →
      out.index = df0.index ∧ out.columnNames = df0.columnNames ∧
        (∀ p ∈ out.cols, (Prod.snd p).length = df0.nrows) ∧
        (∀ c, ¬ fs.contains c → out.getColumn? c = acc.getColumn? c) := by
  intro fs
  induction fs with
  | nil =>
    intro acc out h hi hn hl
    simp [setFeatureColumns] at h
    subst h
    exact ⟨hi, hn, hl, fun c _ => rfl⟩
  | cons f fs ih =>
    intro acc out h hi hn hl
    simp only [setFeatureColumns] at h
    split at h
    · simp at h
    · rename_i vs hcol
      split at h
      · simp at h
      · rename_i ws hws
        have hfn : f ∈ acc.columnNames := by
          rw [hn]; exact getColumn?_mem_names hcol
        have hvs : vs.length = df0.nrows := hwf _ (getColumn?_mem hcol)
        have hws' : ws.length = df0.nrows := by rw [hg vs ws hws]; exact hvs
        have hrec := ih (acc.setColumn f ws) out h
          (by rw [setColumn_index]; exact hi)
          (by rw [setColumn_names_of_mem hfn]; exact hn)
          (setColumn_lengths hws' hl)
        refine ⟨hrec.1, hrec.2.1, hrec.2.2.1, ?_⟩
        intro c hc
        have hcf : c ≠ f := by
          intro he; apply hc; simp [he]
        have hcfs : ¬ fs.contains c := by
          intro he; apply hc; simp at he ⊢; exact Or.inr he
        rw [hrec.2.2.2 c hcfs, getColumn?_setColumn_ne hcf]

/-! ### Category-list lemmas -/

theorem sortedInsert_perm (v : Value) (l : List Value) :
    (sortedInsert v l).Perm (v :: l) := by
  induction l with
  | nil => exact List.Perm.refl _
  | cons c cs ih =>
    unfold sortedInsert
    split
    · exact List.Perm.refl _
    · exact (ih.cons c).trans (List.Perm.swap v c cs)

theorem foldr_sortedInsert_perm (l : List Value) :
    (l.foldr sortedInsert []).Perm l := by
  induction l with
  | nil => exact List.Perm.refl _
  | cons v t ih => exact (sortedInsert_perm v _).trans (ih.cons v)

theorem categoriesOf_perm_dedup (vs : List Value) :
    (categoriesOf vs).Perm vs.dedup := foldr_sortedInsert_perm _

theorem categoriesOf_nodup (vs : List Value) : (categoriesOf vs).Nodup :=
  (categoriesOf_perm_dedup vs).nodup_iff.mpr (List.nodup_dedup vs)

theorem mem_categoriesOf {vs : List Value} {a : Value} :
    a ∈ categoriesOf vs ↔ a ∈ vs := by
  rw [(categoriesOf_perm_dedup vs).mem_iff, List.mem_dedup]

/-! ### Split-size arithmetic -/

theorem nTest_add_nTrain (ts : ℚ) (n : Nat) (h0 : 0 ≤ ts) (h1 : ts ≤ 1) :
    nTestOf ts n + nTrainOf ts n = n := by
  unfold nTestOf nTrainOf
  have hsum : ((1 : ℚ) - ts) * n = ((n : ℤ) : ℚ) + (-(ts * n)) := by push_cast; ring
  rw [hsum, Int.floor_int_add, Int.floor_neg]
  have hc0 : 0 ≤ ⌈ts * (n : ℚ)⌉ := Int.ceil_nonneg (mul_nonneg h0 (Nat.cast_nonneg n))
  have hcn : ⌈ts * (n : ℚ)⌉ ≤ (n : ℤ) := by
    rw [Int.ceil_le]
    push_cast
    calc ts * (n : ℚ) ≤ 1 * n := mul_le_mul_of_nonneg_right h1 (Nat.cast_nonneg n)
    _ = n := one_mul _
  omega

/-! ### Row-label disjointness -/

theorem map_getD_disjoint {l : List Nat} (hl : l.Nodup) {idx1 idx2 : List Nat}
    (hd : ∀ i ∈ idx1, i ∉ idx2)
    (h1 : ∀ i ∈ idx1, i < l.length) (h2 : ∀ i ∈ idx2, i < l.length) :
    ∀ a ∈ idx1.map (fun i => l.getD i 0), a ∉ idx2.map (fun i => l.getD i 0) := by
  intro a ha hain
  obtain ⟨i, hi, hia⟩ := List.mem_map.mp ha
  obtain ⟨j, hj, hja⟩ := List.mem_map.mp hain
  have hilt := h1 i hi
  have hjlt := h2 j hj
  have heq : l.getD i 0 = l.getD j 0 := by rw [hia, hja]
  rw [List.getD_eq_getElem?_getD, List.getD_eq_getElem?_getD,
      List.getElem?_eq_getElem hilt, List.getElem?_eq_getElem hjlt] at heq
  simp only [Option.getD_some] at heq
  have hij : i = j := (hl.getElem_inj_iff).mp heq
  exact hd i hi (hij ▸ hj)

/-! ### Dropped-column lookup -/

theorem contains_true_iff {α : Type} [BEq α] [LawfulBEq α] {l : List α} {a : α} :
    l.contains a = true ↔ a ∈ l := List.elem_iff

theorem find?_filter_drop (cols : List (String × List Value)) (cs : List String)
    (c : String) (hc : cs.contains c = false) :
    (cols.filter (fun p => !(cs.contains p.1))).find? (fun p => p.1 == c)
      = cols.find? (fun p => p.1 == c) := by
  induction cols with
  | nil => rfl
  | cons p t ih =>
    by_cases hpc : p.1 = c
    · have hs : (!(cs.contains p.1)) = true := by rw [hpc, hc]; rfl
      rw [List.filter_cons, if_pos hs]
      simp only [List.find?, show (p.1 == c) = true by simp [hpc]]
    · have hfind : (p.1 == c) = false := by simp [hpc]
      rw [List.filter_cons]
      by_cases hs : (!(cs.contains p.1)) = true
      · rw [if_pos hs]
        simp only [List.find?, hfind]
        exact ih
      · rw [if_neg hs]
        rw [ih]
        conv_rhs => rw [show List.find? (fun p => p.1 == c) (p :: t)
          = List.find? (fun p => p.1 == c) t from by simp only [List.find?, hfind]]

theorem dropColumns_getColumn? {df : DataFrame} {cs : List String} {c : String}
    (hc : cs.contains c = false) :
    (df.dropColumns cs).getColumn? c = df.getColumn? c := by
  unfold DataFrame.dropColumns DataFrame.getColumn?
  simp only
  rw [find?_filter_drop _ _ _ hc]

/-! ### Per-feature column rewriting, packaged -/

theorem numMap_length (F : List ℚ → List ℚ) (hF : ∀ xs, (F xs).length = xs.length) :
    ∀ vs ws : List Value,
      ((numColumn vs).map (fun xs => (F xs).map Value.num)) = Except.ok ws →
      ws.length = vs.length := by
  intro vs ws h
  cases hnc : numColumn vs with
  | error e => rw [hnc] at h; simp [Except.map] at h
  | ok xs =>
    rw [hnc] at h
    simp [Except.map] at h
    subst h
    simp [hF, numColumn_length hnc]

theorem mapFeature_apply_spec {df out : DataFrame} {fs : List String}
    {g : List Value → Except String (List Value)}
    (hg : ∀ vs ws, g vs = Except.ok ws → ws.length = vs.length)
    (hwf : df.WF) (h : setFeatureColumns df g fs df = Except.ok out) :
    out.nrows = df.nrows ∧ (∀ p ∈ out.cols, (Prod.snd p).length = df.nrows) ∧
      ∀ c, ¬ fs.contains c → out.getColumn? c = df.getColumn? c := by
  have hs := setFeatureColumns_spec hg hwf.2 fs df out h rfl rfl hwf.2
  exact ⟨by unfold DataFrame.nrows; rw [hs.1], hs.2.2.1, hs.2.2.2⟩

/-! ### One-hot block lemmas -/

theorem encodeFeature_lengths {f : String} {vs : List Value} :
    ∀ p ∈ encodeFeature f vs, (Prod.snd p).length = vs.length := by
  intro p hp
  obtain ⟨c, _, hc⟩ := List.mem_map.mp hp
  rw [← hc]
  simp

theorem encodeFeature_01 {f : String} {vs : List Value} :
    ∀ p ∈ encodeFeature f vs, ∀ v ∈ (Prod.snd p), v = Value.num 0 ∨ v = Value.num 1 := by
  intro p hp v hv
  obtain ⟨c, _, hc⟩ := List.mem_map.mp hp
  rw [← hc] at hv
  obtain ⟨w, _, hw⟩ := List.mem_map.mp hv
  by_cases hwc : w = c
  · rw [if_pos hwc] at hw; exact Or.inr hw.symm
  · rw [if_neg hwc] at hw; exact Or.inl hw.symm

theorem encodeFeature_names {f : String} {vs : List Value} {nm : String}
    (h : nm ∈ (encodeFeature f vs).map Prod.fst) :
    ∃ c ∈ categoriesOf vs, nm = f ++ "_" ++ Value.keyStr c := by
  obtain ⟨p, hp, hnm⟩ := List.mem_map.mp h
  obtain ⟨c, hc, hcp⟩ := List.mem_map.mp hp
  refine ⟨c, List.mem_of_mem_drop hc, ?_⟩
  rw [← hnm, ← hcp]

theorem encodedBlock_ok_elim {df : DataFrame} {f : String} {fs : List String}
    {enc : List (String × List Value)}
    (h : encodedBlock df (f :: fs) = Except.ok enc) :
    ∃ vs rest, df.getColumn? f = some vs ∧ encodedBlock df fs = Except.ok rest ∧
      enc = encodeFeature f vs ++ rest := by
  simp only [encodedBlock] at h
  cases hcol : df.getColumn? f with
  | none => rw [hcol] at h; simp at h
  | some vs =>
    rw [hcol] at h
    cases hrec : encodedBlock df fs with
    | error e => rw [hrec] at h; simp [Except.map] at h
    | ok rest =>
      rw [hrec] at h
      simp [Except.map] at h
      exact ⟨vs, rest, rfl, rfl, h.symm⟩

theorem encodedBlock_lengths {df : DataFrame}
    (hwf : ∀ p ∈ df.cols, (Prod.snd p).length = df.nrows) :
    ∀ (fs : List String) (enc : List (String × List Value)),
      encodedBlock df fs = Except.ok enc →
      ∀ p ∈ enc, (Prod.snd p).length = df.nrows := by
  intro fs
  induction fs with
  | nil => intro enc h p hp; simp [encodedBlock] at h; subst h; simp at hp
  | cons f fs ih =>
    intro enc h p hp
    obtain ⟨vs, rest, hcol, hrec, henc⟩ := encodedBlock_ok_elim h
    subst henc
    rcases List.mem_append.mp hp with hp | hp
    · rw [encodeFeature_lengths p hp]
      exact hwf _ (getColumn?_mem hcol)
    · exact ih rest hrec p hp

theorem encodedBlock_01 {df : DataFrame} :
    ∀ (fs : List String) (enc : List (String × List Value)),
      encodedBlock df fs = Except.ok enc →
      ∀ p ∈ enc, ∀ v ∈ (Prod.snd p), v = Value.num 0 ∨ v = Value.num 1 := by
  intro fs
  induction fs with
  | nil => intro enc h p hp; simp [encodedBlock] at h; subst h; simp at hp
  | cons f fs ih =>
    intro enc h p hp
    obtain ⟨vs, rest, hcol, hrec, henc⟩ := encodedBlock_ok_elim h
    subst henc
    rcases List.mem_append.mp hp with hp | hp
    · exact encodeFeature_01 p hp
    · exact ih rest hrec p hp

theorem encodedBlock_names_sub {df : DataFrame} :
    ∀ (fs : List String) (enc : List (String × List Value)) (f : String) (vs : List Value),
      encodedBlock df fs = Except.ok enc → f ∈ fs → df.getColumn? f = some vs →
      ∀ nm ∈ (encodeFeature f vs).map Prod.fst, nm ∈ enc.map Prod.fst := by
  intro fs
  induction fs with
  | nil => intro enc f vs _ hf; simp at hf
  | cons g gs ih =>
    intro enc f vs h hf hcol nm hnm
    obtain ⟨ws, rest, hgcol, hrec, henc⟩ := encodedBlock_ok_elim h
    subst henc
    rw [List.map_append, List.mem_append]
    rcases List.mem_cons.mp hf with hfg | hfg
    · subst hfg
      rw [hgcol] at hcol
      injection hcol with hvw
      subst hvw
      exact Or.inl hnm
    · exact Or.inr (ih rest f vs hrec hfg hcol nm hnm)

theorem encodedBlock_count {df : DataFrame} :
    ∀ (fs : List String) (enc : List (String × List Value)) (f : String) (vs : List Value),
      encodedBlock df fs = Except.ok enc → f ∈ fs → df.getColumn? f = some vs →
      (enc.map Prod.fst).Nodup →
      (enc.filter (fun p => ((encodeFeature f vs).map Prod.fst).contains p.1)).length
        = (encodeFeature f vs).length := by
  intro fs
  induction fs with
  | nil => intro enc f vs _ hf; simp at hf
  | cons g gs ih =>
    intro enc f vs h hf hcol hnodup
    obtain ⟨ws, rest, hgcol, hrec, henc⟩ := encodedBlock_ok_elim h
    subst henc
    rw [List.map_append] at hnodup
    have hdis := List.disjoint_of_nodup_append hnodup
    have hnodup_rest : (rest.map Prod.fst).Nodup := (List.nodup_append.mp hnodup).2.1
    rw [List.filter_append, List.length_append]
    rcases List.mem_cons.mp hf with hfg | hfg
    · subst hfg
      rw [hgcol] at hcol
      injection hcol with hvw
      subst hvw
      have hall : (encodeFeature f ws).filter
          (fun p => ((encodeFeature f ws).map Prod.fst).contains p.1)
            = encodeFeature f ws := by
        rw [List.filter_eq_self]
        intro p hp
        rw [contains_true_iff]
        exact List.mem_map.mpr ⟨p, hp, rfl⟩
      have hnone : rest.filter
          (fun p => ((encodeFeature f ws).map Prod.fst).contains p.1) = [] := by
        rw [List.filter_eq_nil_iff]
        intro p hp hcont
        rw [contains_true_iff] at hcont
        exact hdis hcont (List.mem_map.mpr ⟨p, hp, rfl⟩)
      rw [hall, hnone]
      simp
    · have hnone : (encodeFeature g ws).filter
          (fun p => ((encodeFeature f vs).map Prod.fst).contains p.1) = [] := by
        rw [List.filter_eq_nil_iff]
        intro p hp hcont
        rw [contains_true_iff] at hcont
        have hin : p.1 ∈ rest.map Prod.fst :=
          encodedBlock_names_sub gs rest f vs hrec hfg hcol p.1 hcont
        exact hdis (List.mem_map.mpr ⟨p, hp, rfl⟩) hin
      rw [hnone]
      simp only [List.length_nil, Nat.zero_add]
      exact ih rest f vs hrec hfg hcol hnodup_rest

theorem encodedBlock_no_capture {df : DataFrame} {f : String} :
    ∀ (fs : List String) (enc : List (String × List Value)),
      encodedBlock df fs = Except.ok enc →
      (∀ g ∈ fs, ∀ w ∈ (df.getColumn? g).getD [],
        f ≠ g ++ "_" ++ Value.keyStr w) →
      f ∉ enc.map Prod.fst := by
  intro fs
  induction fs with
  | nil => intro enc h _; simp [encodedBlock] at h; subst h; simp
  | cons g gs ih =>
    intro enc h hfresh hmem
    obtain ⟨ws, rest, hgcol, hrec, henc⟩ := encodedBlock_ok_elim h
    subst henc
    rw [List.map_append, List.mem_append] at hmem
    rcases hmem with hmem | hmem
    · obtain ⟨c, hc, hfc⟩ := encodeFeature_names hmem
      have hcw : c ∈ ws := mem_categoriesOf.mp hc
      have := hfresh g (List.mem_cons_self g gs) c (by rw [hgcol]; exact hcw)
      exact this hfc
    · exact ih rest hrec
        (fun g' hg' => hfresh g' (List.mem_cons_of_mem g hg')) hmem

/-! ### Store-level run -/

theorem runOnCopy_spec {body : DataFrame → Except String DataFrame}
    {st : Store} {r : Nat} {st' : Store} {r' : Nat}
    (hr : r < st.length) (h : runOnCopy body st r = Except.ok (st', r')) :
    readRef st' r = readRef st r ∧ r' ≠ r ∧
      ∃ out, body (readRef st r) = Except.ok out ∧ readRef st' r' = out := by
  unfold runOnCopy at h
  cases hb : body (readRef st r) with
  | error e => rw [hb] at h; simp at h
  | ok out =>
    rw [hb] at h
    simp only [Except.ok.injEq, Prod.mk.injEq] at h
    obtain ⟨hst, hr'⟩ := h
    subst hst; subst hr'
    refine ⟨?_, by omega, out, rfl, ?_⟩
    · unfold readRef
      rw [List.getElem?_append_left hr]
    · unfold readRef
      rw [List.getElem?_append_right (Nat.le_refl _)]
      simp

/-! ### Concrete data for instantiations -/

/-- A small concrete training frame: one numeric and one categorical
column over two rows. -/
def sampleFrame : DataFrame :=
  ⟨[0, 1], [("Area", [Value.num 100, Value.num 200]),
            ("Nbhd", [Value.cat "x", Value.cat "y"])]⟩

/-! ### Claim theorems -/

/-- C9: each Context (DataSplitter, FeatureEngineer, ModelEvaluator)
forwards its operation with unchanged arguments to the held strategy and
returns its result verbatim, and set_strategy only replaces the stored
strategy; hence calling through a Context is equal, as a function, to
calling the strategy directly. -/
theorem context_forwarding :
    (∀ (s : DataSplittingStrategy) (df : DataFrame) (t : String),
        (DataSplitter.mk s).split df t = s df t) ∧
    (∀ (c : DataSplitter) (s : DataSplittingStrategy),
        c.set_strategy s = DataSplitter.mk s) ∧
    (∀ (s : FeatureEngineeringStrategy) (df : DataFrame),
        (FeatureEngineer.mk s).apply_feature_engineering df = s df) ∧
    (∀ (c : FeatureEngineer) (s : FeatureEngineeringStrategy),
        c.set_strategy s = FeatureEngineer.mk s) ∧
    (∀ (s : ModelEvaluationStrategy) (m : RegressorModel) (X : DataFrame) (y : List ℚ),
        (ModelEvaluator.mk s).evaluate m X y = s m X y) ∧
    (∀ (c : ModelEvaluator) (s : ModelEvaluationStrategy),
        c.set_strategy s = ModelEvaluator.mk s) :=
  ⟨fun _ _ _ => rfl, fun _ _ => rfl, fun _ _ => rfl, fun _ _ => rfl,
   fun _ _ _ _ => rfl, fun _ _ => rfl⟩

/-- C1: evaluate_model does not return the metrics mapping — the source
line `mse = mean_squared_error((y_test, y_pred))` passes one tuple
argument to a function with two required positional parameters, so the
call raises a TypeError. Evaluated here at a concrete model and test
set. -/
theorem evaluate_model_typeerror :
    RegressionModelEvaluationStrategy.evaluate_model ⟨fun _ => [2]⟩ sampleFrame [1]
      = Except.error "TypeError: mean_squared_error missing 1 required positional argument: y_pred" :=
  rfl

/-- C2 counterexample: at a concrete training frame with one numeric and
one categorical column, the pipeline constructed by the model-building
step contains no scaler, and the pipeline constructed by
LinearRegressionStrategy contains no imputer and no encoder; so no
build_and_train pipeline imputes, one-hot-encodes, scales and fits a
regression together, as the claim states. -/
theorem build_and_train_no_scaler :
    Transformer.standardScaler ∉ (model_building_step_pipeline sampleFrame).transformers
    ∧ Transformer.simpleImputer "mean" ∉ LinearRegressionStrategy.pipeline.transformers
    ∧ Transformer.simpleImputer "most_frequent" ∉ LinearRegressionStrategy.pipeline.transformers
    ∧ Transformer.oneHotEncoder "ignore" ∉ LinearRegressionStrategy.pipeline.transformers := by
  decide

/-- C2 (amended): for every training input, model_building_step builds
and fits a pipeline that imputes missing numeric values with the column
mean, imputes missing categorical values with the mode, one-hot-encodes
the categorical columns and then fits a linear regression, and returns
that pipeline; no scaling of the numeric columns is part of it. -/
theorem build_and_train_pipeline_structure (X : DataFrame) (y : Series)
    (fitOutcome : Except String Unit) :
    ∃ out : StepOutcome, model_building_step X y fitOutcome = Except.ok out ∧
      out.pipeline.steps =
        [("preprocessor", PipeStep.preprocessor
            { numerical_transformer := [Transformer.simpleImputer "mean"],
              numerical_cols := X.nonObjectColumns,
              categorical_transformer := [Transformer.simpleImputer "most_frequent",
                                          Transformer.oneHotEncoder "ignore"],
              categorical_cols := X.objectColumns }),
         ("model", PipeStep.estimator Estimator.linearRegression)] ∧
      Transformer.standardScaler ∉ out.pipeline.transformers := by
  have htr : Transformer.standardScaler ∉ (model_building_step_pipeline X).transformers := by
    simp [model_building_step_pipeline, SkPipeline.transformers]
  cases h : model_building_step_tryBlock fitOutcome with
  | ok u =>
    exact ⟨⟨model_building_step_pipeline X, none⟩, by simp [model_building_step, h], rfl, htr⟩
  | error e =>
    exact ⟨⟨model_building_step_pipeline X, some e⟩, by simp [model_building_step, h], rfl, htr⟩

/-- C3: when the guarded training block raises, model_building_step
catches the exception, records it in the log, does not re-raise, and
still returns the constructed (possibly unfit) pipeline. -/
theorem model_building_step_swallows_exception (X : DataFrame) (y : Series)
    (fitOutcome : Except String Unit) (e : String)
    (h : model_building_step_tryBlock fitOutcome = Except.error e) :
    model_building_step X y fitOutcome
      = Except.ok ⟨model_building_step_pipeline X, some e⟩ := by
  simp [model_building_step, h]

/-- C3 instantiated: a failing fit on the sample frame is caught and the
pipeline is still returned. -/
theorem model_building_step_swallows_exception_witness :
    model_building_step_tryBlock (Except.error "fit failed") = Except.error "fit failed" ∧
    model_building_step sampleFrame ⟨[0, 1], [Value.num 1, Value.num 2]⟩
        (Except.error "fit failed")
      = Except.ok ⟨model_building_step_pipeline sampleFrame, some "fit failed"⟩ :=
  ⟨rfl, model_building_step_swallows_exception _ _ _ _ rfl⟩

/-- C4: splitting is deterministic — two strategy instances with the same
test fraction and the same seed produce identical train/test partitions
on every dataset; the partition depends on nothing else. -/
theorem split_data_deterministic (s1 s2 : SimpleTrainTestSplitStrategy)
    (df : DataFrame) (target : String)
    (hts : s1.test_size = s2.test_size) (hrs : s1.random_state = s2.random_state) :
    s1.split_data df target = s2.split_data df target := by
  cases s1; cases s2
  simp only at hts hrs
  subst hts; subst hrs
  rfl

/-- C4 instantiated: two separately constructed strategies with equal
parameters (fraction 2/10 = 1/5, seed 42) agree on the sample frame. -/
theorem split_data_deterministic_witness :
    SimpleTrainTestSplitStrategy.split_data ⟨2/10, 42⟩ sampleFrame "Area"
      = SimpleTrainTestSplitStrategy.split_data ⟨1/5, 42⟩ sampleFrame "Area" :=
  split_data_deterministic _ _ _ _ (by norm_num) rfl

/-- C8: every ingestion contract violation is a terminal error: an
unsupported extension at the factory, a non-zip path at the ingestor,
zero or more than one extracted CSV file, and a missing target column at
the splitter each raise; no value is returned. -/
theorem ingestion_failures_terminal (ext path zpath : String)
    (listing0 listing2 : List String) (readCsv : String → DataFrame)
    (df : DataFrame) (target : String) (s : SimpleTrainTestSplitStrategy)
    (hext : ext ≠ ".zip")
    (hpath : ¬ strEndsWith path ".zip")
    (hz : strEndsWith zpath ".zip")
    (h0 : listing0.filter (fun f => strEndsWith f ".csv") = [])
    (h2 : 1 < (listing2.filter (fun f => strEndsWith f ".csv")).length)
    (htg : ¬ df.columnNames.contains target) :
    DataIngestorFactory.get_data_ingestor ext
        = Except.error ("No Ingestor available for file extension: " ++ ext) ∧
    ZipDataIngestor.ingest listing0 readCsv path
        = Except.error "The provided file is not a .zip file" ∧
    ZipDataIngestor.ingest listing0 readCsv zpath
        = Except.error "No CSV file found in the extracted data" ∧
    ZipDataIngestor.ingest listing2 readCsv zpath
        = Except.error "Multipel CSV files found. Please specify which one to use." ∧
    s.split_data df target = Except.error ("KeyError: " ++ target) := by
  refine ⟨?_, ?_, ?_, ?_, ?_⟩
  · simp [DataIngestorFactory.get_data_ingestor, hext]
  · simp [ZipDataIngestor.ingest, hpath]
  · simp [ZipDataIngestor.ingest, hz, h0]
  · have hne : ¬ (listing2.filter (fun f => strEndsWith f ".csv")).length = 0 := by omega
    simp [ZipDataIngestor.ingest, hz, hne, h2]
  · simp [SimpleTrainTestSplitStrategy.split_data]
    simpa using htg

/-- C8 instantiated at concrete inputs: extension ".txt", path
"data.tar", an archive with no CSV, an archive with two CSVs, and a
frame without the requested target column. -/
theorem ingestion_failures_terminal_witness :
    DataIngestorFactory.get_data_ingestor ".txt"
        = Except.error ("No Ingestor available for file extension: " ++ ".txt") ∧
    ZipDataIngestor.ingest ["readme.md"] (fun _ => ⟨[], []⟩) "data.tar"
        = Except.error "The provided file is not a .zip file" ∧
    ZipDataIngestor.ingest ["readme.md"] (fun _ => ⟨[], []⟩) "archive.zip"
        = Except.error "No CSV file found in the extracted data" ∧
    ZipDataIngestor.ingest ["a.csv", "b.csv"] (fun _ => ⟨[], []⟩) "archive.zip"
        = Except.error "Multipel CSV files found. Please specify which one to use." ∧
    SimpleTrainTestSplitStrategy.split_data ⟨1/5, 42⟩ sampleFrame "SalePrice"
        = Except.error ("KeyError: " ++ "SalePrice") :=
  ingestion_failures_terminal ".txt" "data.tar" "archive.zip" ["readme.md"]
    ["a.csv", "b.csv"] (fun _ => ⟨[], []⟩) sampleFrame "SalePrice" ⟨1/5, 42⟩
    (by decide) (by decide) (by decide) (by decide) (by decide) (by decide)

/-- C5: for every well-formed dataset containing the target column, with
a test fraction in [0, 1], the split partitions the rows: train and test
row counts sum to the dataset row count (both for the feature frames and
for the target series), and the train row labels are disjoint from the
test row labels. -/
theorem split_data_partition (s : SimpleTrainTestSplitStrategy) (df : DataFrame)
    (target : String) (res : SplitResult)
    (hwf : df.WF) (h0 : 0 ≤ s.test_size) (h1 : s.test_size ≤ 1)
    (h : s.split_data df target = Except.ok res) :
    res.X_train.nrows + res.X_test.nrows = df.nrows ∧
    res.y_train.values.length + res.y_test.values.length = df.nrows ∧
    (∀ i ∈ res.X_train.index, i ∉ res.X_test.index) := by
  unfold SimpleTrainTestSplitStrategy.split_data at h
  split at h
  case isFalse => simp at h
  case isTrue hcond =>
    simp only [Except.ok.injEq] at h
    subst h
    have hn := permutation_length s.random_state df.nrows
    have hsum := nTest_add_nTrain s.test_size df.nrows h0 h1
    have hTestLen :
        ((permutation s.random_state df.nrows).take (nTestOf s.test_size df.nrows)).length
          = nTestOf s.test_size df.nrows := by
      rw [List.length_take, hn]; omega
    have hTrainLen :
        (((permutation s.random_state df.nrows).drop (nTestOf s.test_size df.nrows)).take
            (nTrainOf s.test_size df.nrows)).length = nTrainOf s.test_size df.nrows := by
      rw [List.length_take, List.length_drop, hn]; omega
    refine ⟨?_, ?_, ?_⟩
    · simp only [DataFrame.selectRows, DataFrame.nrows, List.length_map] at hTestLen hTrainLen hsum ⊢
      omega
    · simp only [Series.selectRows, DataFrame.nrows, List.length_map] at hTestLen hTrainLen hsum ⊢
      omega
    · simp only [DataFrame.selectRows, DataFrame.dropColumns]
      have hnd := permutation_nodup s.random_state df.nrows
      have hdis : ((permutation s.random_state df.nrows).take (nTestOf s.test_size df.nrows)).Disjoint
          ((permutation s.random_state df.nrows).drop (nTestOf s.test_size df.nrows)) :=
        List.disjoint_of_nodup_append (by rw [List.take_append_drop]; exact hnd)
      apply map_getD_disjoint hwf.1
      · intro i hi hmem
        have hidrop : i ∈ (permutation s.random_state df.nrows).drop (nTestOf s.test_size df.nrows) :=
          List.take_subset _ _ hi
        exact hdis hmem hidrop
      · intro i hi
        have : i ∈ permutation s.random_state df.nrows :=
          List.drop_subset _ _ (List.take_subset _ _ hi)
        exact permutation_mem_lt _ _ this
      · intro i hi
        have : i ∈ permutation s.random_state df.nrows := List.take_subset _ _ hi
        exact permutation_mem_lt _ _ this

/-- C6: each of the four feature-engineering transformations returns a
frame with the same row count and the same row order as its input: the
row count is preserved, every output column has that row count, and
every input column outside the transformed feature list is carried over
verbatim, in its original row order. -/
theorem transformations_preserve_rows
    (log1p sqrtQ : ℚ → ℚ) (tL : LogTransformation) (tS : StandardScaling)
    (tM : MinMaxScaling) (tO : OneHotEncoding) (df : DataFrame)
    (outL outS outM outO : DataFrame)
    (hwf : df.WF)
    (hL : tL.apply_transformation log1p df = Except.ok outL)
    (hS : tS.apply_transformation sqrtQ df = Except.ok outS)
    (hM : tM.apply_transformation df = Except.ok outM)
    (hO : tO.apply_transformation df = Except.ok outO) :
    (outL.nrows = df.nrows ∧ (∀ p ∈ outL.cols, (Prod.snd p).length = df.nrows) ∧
      ∀ c ∈ df.columnNames, tL.features.contains c = false →
        outL.getColumn? c = df.getColumn? c) ∧
    (outS.nrows = df.nrows ∧ (∀ p ∈ outS.cols, (Prod.snd p).length = df.nrows) ∧
      ∀ c ∈ df.columnNames, tS.features.contains c = false →
        outS.getColumn? c = df.getColumn? c) ∧
    (outM.nrows = df.nrows ∧ (∀ p ∈ outM.cols, (Prod.snd p).length = df.nrows) ∧
      ∀ c ∈ df.columnNames, tM.features.contains c = false →
        outM.getColumn? c = df.getColumn? c) ∧
    (outO.nrows = df.nrows ∧ (∀ p ∈ outO.cols, (Prod.snd p).length = df.nrows) ∧
      ∀ c ∈ df.columnNames, tO.features.contains c = false →
        outO.getColumn? c = df.getColumn? c) := by
  have hL' : setFeatureColumns df
      (fun vs => (numColumn vs).map (fun xs => (xs.map log1p).map Value.num))
      tL.features df = Except.ok outL := hL
  have hS' : setFeatureColumns df
      (fun vs => (numColumn vs).map (fun xs => (standardize sqrtQ xs).map Value.num))
      tS.features df = Except.ok outS := hS
  have hM' : setFeatureColumns df
      (fun vs => (numColumn vs).map
        (fun xs => (minmaxScale tM.feature_range.1 tM.feature_range.2 xs).map Value.num))
      tM.features df = Except.ok outM := hM
  have hLspec := mapFeature_apply_spec
    (numMap_length (fun xs => xs.map log1p) (fun xs => List.length_map xs log1p)) hwf hL'
  have hSspec := mapFeature_apply_spec
    (numMap_length (standardize sqrtQ) (fun xs => by simp [standardize])) hwf hS'
  have hMspec := mapFeature_apply_spec
    (numMap_length (minmaxScale tM.feature_range.1 tM.feature_range.2)
      (fun xs => by simp [minmaxScale])) hwf hM'
  have hOO : ∃ enc, encodedBlock df tO.features = Except.ok enc ∧
      outO = ⟨List.range df.nrows, (df.dropColumns tO.features).cols ++ enc⟩ := by
    unfold OneHotEncoding.apply_transformation at hO
    cases henc : encodedBlock df tO.features with
    | error e => rw [henc] at hO; simp [Except.map] at hO
    | ok enc => rw [henc] at hO; simp [Except.map] at hO; exact ⟨enc, rfl, hO.symm⟩
  obtain ⟨enc, henc, hout⟩ := hOO
  subst hout
  refine ⟨⟨hLspec.1, hLspec.2.1, fun c _ hc => hLspec.2.2 c (by rw [hc]; simp)⟩,
          ⟨hSspec.1, hSspec.2.1, fun c _ hc => hSspec.2.2 c (by rw [hc]; simp)⟩,
          ⟨hMspec.1, hMspec.2.1, fun c _ hc => hMspec.2.2 c (by rw [hc]; simp)⟩,
          ?_, ?_, ?_⟩
  · simp [DataFrame.nrows]
  · intro p hp
    rcases List.mem_append.mp hp with hp | hp
    · exact hwf.2 p (List.mem_of_mem_filter hp)
    · exact encodedBlock_lengths hwf.2 tO.features enc henc p hp
  · intro c hcn hcf
    show (Option.map Prod.snd _) = df.getColumn? c
    simp only [DataFrame.dropColumns]
    rw [List.find?_append, find?_filter_drop df.cols tO.features c hcf]
    have hsome : (df.cols.find? (fun p => p.1 == c)).isSome := by
      rw [List.find?_isSome]
      obtain ⟨p, hp, hpc⟩ := List.mem_map.mp hcn
      exact ⟨p, hp, by simp [hpc]⟩
    rw [Option.or_of_isSome hsome]
    rfl

/-- C10: each of the four transformations operates on a copy of its
argument: run over the object store, the callers frame is unchanged
afterwards, the result is a fresh object, and every input column outside
the transformed feature list appears unchanged in the result. -/
theorem transformations_copy_input
    (log1p sqrtQ : ℚ → ℚ) (tL : LogTransformation) (tS : StandardScaling)
    (tM : MinMaxScaling) (tO : OneHotEncoding) (st : Store) (r : Nat)
    (stL stS stM stO : Store) (rL rS rM rO : Nat)
    (hr : r < st.length) (hwf : (readRef st r).WF)
    (hL : tL.applyStore log1p st r = Except.ok (stL, rL))
    (hS : tS.applyStore sqrtQ st r = Except.ok (stS, rS))
    (hM : tM.applyStore st r = Except.ok (stM, rM))
    (hO : tO.applyStore st r = Except.ok (stO, rO)) :
    (readRef stL r = readRef st r ∧ rL ≠ r ∧
      ∀ c ∈ (readRef st r).columnNames, tL.features.contains c = false →
        (readRef stL rL).getColumn? c = (readRef st r).getColumn? c) ∧
    (readRef stS r = readRef st r ∧ rS ≠ r ∧
      ∀ c ∈ (readRef st r).columnNames, tS.features.contains c = false →
        (readRef stS rS).getColumn? c = (readRef st r).getColumn? c) ∧
    (readRef stM r = readRef st r ∧ rM ≠ r ∧
      ∀ c ∈ (readRef st r).columnNames, tM.features.contains c = false →
        (readRef stM rM).getColumn? c = (readRef st r).getColumn? c) ∧
    (readRef stO r = readRef st r ∧ rO ≠ r ∧
      ∀ c ∈ (readRef st r).columnNames, tO.features.contains c = false →
        (readRef stO rO).getColumn? c = (readRef st r).getColumn? c) := by
  have hLr : runOnCopy (tL.apply_transformation log1p) st r = Except.ok (stL, rL) := hL
  have hSr : runOnCopy (tS.apply_transformation sqrtQ) st r = Except.ok (stS, rS) := hS
  have hMr : runOnCopy tM.apply_transformation st r = Except.ok (stM, rM) := hM
  have hOr : runOnCopy tO.apply_transformation st r = Except.ok (stO, rO) := hO
  obtain ⟨hL1, hL2, outL, hbL, hrdL⟩ := runOnCopy_spec hr hLr
  obtain ⟨hS1, hS2, outS, hbS, hrdS⟩ := runOnCopy_spec hr hSr
  obtain ⟨hM1, hM2, outM, hbM, hrdM⟩ := runOnCopy_spec hr hMr
  obtain ⟨hO1, hO2, outO, hbO, hrdO⟩ := runOnCopy_spec hr hOr
  have hspec := transformations_preserve_rows log1p sqrtQ tL tS tM tO
    (readRef st r) outL outS outM outO hwf hbL hbS hbM hbO
  refine ⟨⟨hL1, hL2, ?_⟩, ⟨hS1, hS2, ?_⟩, ⟨hM1, hM2, ?_⟩, ⟨hO1, hO2, ?_⟩⟩
  · intro c hcn hcf; rw [hrdL]; exact hspec.1.2.2 c hcn hcf
  · intro c hcn hcf; rw [hrdS]; exact hspec.2.1.2.2 c hcn hcf
  · intro c hcn hcf; rw [hrdM]; exact hspec.2.2.1.2.2 c hcn hcf
  · intro c hcn hcf; rw [hrdO]; exact hspec.2.2.2.2.2 c hcn hcf

/-- C7: one-hot encoding a selected column with k observed distinct
categories yields exactly k - 1 indicator columns for it, every
indicator value is 0 or 1, and the original column is removed — under
the sanity preconditions that the output column names are distinct and
no generated name collides with the encoded columns name. The last
three conjuncts state that categoriesOf is exactly the set of distinct
observed categories, so k = (categoriesOf vs).length. -/
theorem onehot_category_counting (t : OneHotEncoding) (df : DataFrame)
    (f : String) (vs : List Value) (out : DataFrame)
    (hf : f ∈ t.features)
    (hcol : df.getColumn? f = some vs)
    (hok : t.apply_transformation df = Except.ok out)
    (hnodup : out.columnNames.Nodup)
    (hfresh : ∀ g ∈ t.features, ∀ w ∈ (df.getColumn? g).getD [],
        f ≠ g ++ "_" ++ Value.keyStr w) :
    (out.cols.filter (fun p => ((encodeFeature f vs).map Prod.fst).contains p.1)).length
        = (categoriesOf vs).length - 1 ∧
    (∀ p ∈ out.cols, ((encodeFeature f vs).map Prod.fst).contains p.1 = true →
        ∀ v ∈ (Prod.snd p), v = Value.num 0 ∨ v = Value.num 1) ∧
    f ∉ out.columnNames ∧
    (categoriesOf vs).Nodup ∧
    (∀ a ∈ vs, a ∈ categoriesOf vs) ∧ (∀ a ∈ categoriesOf vs, a ∈ vs) := by
  have hOO : ∃ enc, encodedBlock df t.features = Except.ok enc ∧
      out = ⟨List.range df.nrows, (df.dropColumns t.features).cols ++ enc⟩ := by
    unfold OneHotEncoding.apply_transformation at hok
    cases henc : encodedBlock df t.features with
    | error e => rw [henc] at hok; simp [Except.map] at hok
    | ok enc => rw [henc] at hok; simp [Except.map] at hok; exact ⟨enc, rfl, hok.symm⟩
  obtain ⟨enc, henc, hout⟩ := hOO
  subst hout
  have hnodup' : ((df.dropColumns t.features).cols.map Prod.fst
      ++ enc.map Prod.fst).Nodup := by
    simpa [DataFrame.columnNames] using hnodup
  have hdisj := List.disjoint_of_nodup_append hnodup'
  have hencNodup : (enc.map Prod.fst).Nodup := (List.nodup_append.mp hnodup').2.1
  refine ⟨?_, ?_, ?_, categoriesOf_nodup vs,
    fun a ha => mem_categoriesOf.mpr ha, fun a ha => mem_categoriesOf.mp ha⟩
  · show ((((df.dropColumns t.features).cols ++ enc).filter
      (fun p => ((encodeFeature f vs).map Prod.fst).contains p.1)).length = _)
    rw [List.filter_append, List.length_append]
    have hb0 : (df.dropColumns t.features).cols.filter
        (fun p => ((encodeFeature f vs).map Prod.fst).contains p.1) = [] := by
      rw [List.filter_eq_nil_iff]
      intro p hp hcont
      rw [contains_true_iff] at hcont
      have hin : p.1 ∈ enc.map Prod.fst :=
        encodedBlock_names_sub t.features enc f vs henc hf hcol p.1 hcont
      exact hdisj (List.mem_map.mpr ⟨p, hp, rfl⟩) hin
    rw [hb0, encodedBlock_count t.features enc f vs henc hf hcol hencNodup]
    simp [encodeFeature]
  · intro p hp hcont
    rcases List.mem_append.mp hp with hp | hp
    · rw [contains_true_iff] at hcont
      have hin : p.1 ∈ enc.map Prod.fst :=
        encodedBlock_names_sub t.features enc f vs henc hf hcol p.1 hcont
      exact absurd hin (fun hin => hdisj (List.mem_map.mpr ⟨p, hp, rfl⟩) hin)
    · exact encodedBlock_01 t.features enc henc p hp
  · show f ∉ (⟨List.range df.nrows, (df.dropColumns t.features).cols ++ enc⟩ :
      DataFrame).columnNames
    simp only [DataFrame.columnNames, List.map_append, List.mem_append]
    rintro (hmem | hmem)
    · obtain ⟨p, hp, hpf⟩ := List.mem_map.mp hmem
      have hkeep := List.of_mem_filter hp
      rw [hpf] at hkeep
      rw [show t.features.contains f = true from contains_true_iff.mpr hf] at hkeep
      simp at hkeep
    · exact encodedBlock_no_capture t.features enc henc hfresh hmem

/-! ### Concrete instantiations of the split and transformation theorems -/

/-- The split the default strategy produces on the sample frame. -/
def sampleSplit : SplitResult :=
  ⟨⟨[0], [("Nbhd", [Value.cat "x"])]⟩, ⟨[1], [("Nbhd", [Value.cat "y"])]⟩,
   ⟨[0], [Value.num 100]⟩, ⟨[1], [Value.num 200]⟩⟩

/-- C5 instantiated: the default strategy on the sample frame. -/
theorem split_data_partition_witness :
    sampleSplit.X_train.nrows + sampleSplit.X_test.nrows = sampleFrame.nrows ∧
    sampleSplit.y_train.values.length + sampleSplit.y_test.values.length = sampleFrame.nrows ∧
    (∀ i ∈ sampleSplit.X_train.index, i ∉ sampleSplit.X_test.index) :=
  split_data_partition ⟨1/5, 42⟩ sampleFrame "Area" sampleSplit
    ⟨by decide, by decide⟩ (by norm_num) (by norm_num)
    (by
      have hts : nTestOf ((1 : ℚ)/5) (sampleFrame.nrows) = 1 := by
        have harg : ((1 : ℚ)/5 * (sampleFrame.nrows : ℚ)) = 2/5 := by
          norm_num [sampleFrame, DataFrame.nrows]
        have hceil : ⌈(2/5 : ℚ)⌉ = 1 := by
          rw [Int.ceil_eq_iff]
          norm_num
        unfold nTestOf
        rw [harg, hceil]
        rfl
      have htr : nTrainOf ((1 : ℚ)/5) (sampleFrame.nrows) = 1 := by
        have harg : (((1 : ℚ) - 1/5) * (sampleFrame.nrows : ℚ)) = 8/5 := by
          norm_num [sampleFrame, DataFrame.nrows]
        have hfloor : ⌊(8/5 : ℚ)⌋ = 1 := by
          rw [Int.floor_eq_iff]
          norm_num
        unfold nTrainOf
        rw [harg, hfloor]
        rfl
      simp only [SimpleTrainTestSplitStrategy.split_data, hts, htr]
      decide)

/-- Log transform of the sample frame with the shift x + 1 as log1p. -/
def logSample : DataFrame :=
  ⟨[0, 1], [("Area", [Value.num 101, Value.num 201]),
            ("Nbhd", [Value.cat "x", Value.cat "y"])]⟩

/-- Standard scaling of the sample frame with the identity as sqrt. -/
def stdSample : DataFrame :=
  ⟨[0, 1], [("Area", [Value.num (-1/50), Value.num (1/50)]),
            ("Nbhd", [Value.cat "x", Value.cat "y"])]⟩

/-- Min-max scaling of the sample frame to [0, 1]. -/
def mmSample : DataFrame :=
  ⟨[0, 1], [("Area", [Value.num 0, Value.num 1]),
            ("Nbhd", [Value.cat "x", Value.cat "y"])]⟩

/-- One-hot encoding of the sample frames Nbhd column. -/
def ohSample : DataFrame :=
  ⟨[0, 1], [("Area", [Value.num 100, Value.num 200]),
            ("Nbhd_y", [Value.num 0, Value.num 1])]⟩

/-- C6 instantiated: all four transformations on the sample frame. -/
theorem transformations_preserve_rows_witness :
    (logSample.nrows = sampleFrame.nrows ∧
      (∀ p ∈ logSample.cols, (Prod.snd p).length = sampleFrame.nrows) ∧
      ∀ c ∈ sampleFrame.columnNames, (["Area"] : List String).contains c = false →
        logSample.getColumn? c = sampleFrame.getColumn? c) ∧
    (stdSample.nrows = sampleFrame.nrows ∧
      (∀ p ∈ stdSample.cols, (Prod.snd p).length = sampleFrame.nrows) ∧
      ∀ c ∈ sampleFrame.columnNames, (["Area"] : List String).contains c = false →
        stdSample.getColumn? c = sampleFrame.getColumn? c) ∧
    (mmSample.nrows = sampleFrame.nrows ∧
      (∀ p ∈ mmSample.cols, (Prod.snd p).length = sampleFrame.nrows) ∧
      ∀ c ∈ sampleFrame.columnNames, (["Area"] : List String).contains c = false →
        mmSample.getColumn? c = sampleFrame.getColumn? c) ∧
    (ohSample.nrows = sampleFrame.nrows ∧
      (∀ p ∈ ohSample.cols, (Prod.snd p).length = sampleFrame.nrows) ∧
      ∀ c ∈ sampleFrame.columnNames, (["Nbhd"] : List String).contains c = false →
        ohSample.getColumn? c = sampleFrame.getColumn? c) :=
  transformations_preserve_rows (fun q => q + 1) id ⟨["Area"]⟩ ⟨["Area"]⟩
    ⟨["Area"], (0, 1)⟩ ⟨["Nbhd"]⟩ sampleFrame logSample stdSample mmSample ohSample
    ⟨by decide, by decide⟩
    (by
      norm_num [LogTransformation.apply_transformation, setFeatureColumns, sampleFrame,
        logSample, DataFrame.setColumn, DataFrame.getColumn?, List.find?, numColumn, Except.map]
      all_goals exact fun h => absurd h (by decide))
    (by
      norm_num [StandardScaling.apply_transformation, setFeatureColumns, sampleFrame,
        stdSample, DataFrame.setColumn, DataFrame.getColumn?, List.find?, numColumn,
        standardize, meanQ, varQ, Except.map, List.sum, List.foldr]
      all_goals exact fun h => absurd h (by decide))
    (by
      norm_num [MinMaxScaling.apply_transformation, setFeatureColumns, sampleFrame,
        mmSample, DataFrame.setColumn, DataFrame.getColumn?, List.find?, numColumn,
        minmaxScale, listMin, listMax, Except.map, List.foldl]
      all_goals exact fun h => absurd h (by decide))
    (by decide)

/-- C10 instantiated: the four transformations over a one-object store
holding the sample frame. -/
theorem transformations_copy_input_witness :
    (readRef [sampleFrame, logSample] 0 = readRef [sampleFrame] 0 ∧ (1 : Nat) ≠ 0 ∧
      ∀ c ∈ (readRef [sampleFrame] 0).columnNames,
        (["Area"] : List String).contains c = false →
        (readRef [sampleFrame, logSample] 1).getColumn? c
          = (readRef [sampleFrame] 0).getColumn? c) ∧
    (readRef [sampleFrame, stdSample] 0 = readRef [sampleFrame] 0 ∧ (1 : Nat) ≠ 0 ∧
      ∀ c ∈ (readRef [sampleFrame] 0).columnNames,
        (["Area"] : List String).contains c = false →
        (readRef [sampleFrame, stdSample] 1).getColumn? c
          = (readRef [sampleFrame] 0).getColumn? c) ∧
    (readRef [sampleFrame, mmSample] 0 = readRef [sampleFrame] 0 ∧ (1 : Nat) ≠ 0 ∧
      ∀ c ∈ (readRef [sampleFrame] 0).columnNames,
        (["Area"] : List String).contains c = false →
        (readRef [sampleFrame, mmSample] 1).getColumn? c
          = (readRef [sampleFrame] 0).getColumn? c) ∧
    (readRef [sampleFrame, ohSample] 0 = readRef [sampleFrame] 0 ∧ (1 : Nat) ≠ 0 ∧
      ∀ c ∈ (readRef [sampleFrame] 0).columnNames,
        (["Nbhd"] : List String).contains c = false →
        (readRef [sampleFrame, ohSample] 1).getColumn? c
          = (readRef [sampleFrame] 0).getColumn? c) :=
  transformations_copy_input (fun q => q + 1) id ⟨["Area"]⟩ ⟨["Area"]⟩
    ⟨["Area"], (0, 1)⟩ ⟨["Nbhd"]⟩ [sampleFrame] 0
    [sampleFrame, logSample] [sampleFrame, stdSample]
    [sampleFrame, mmSample] [sampleFrame, ohSample] 1 1 1 1
    (by decide) ⟨by decide, by decide⟩
    (by
      norm_num [LogTransformation.applyStore, runOnCopy, readRef, LogTransformation.apply_transformation, setFeatureColumns, sampleFrame,
        logSample, DataFrame.setColumn, DataFrame.getColumn?, List.find?, numColumn, Except.map]
      all_goals exact fun h => absurd h (by decide))
    (by
      norm_num [StandardScaling.applyStore, runOnCopy, readRef, StandardScaling.apply_transformation, setFeatureColumns, sampleFrame,
        stdSample, DataFrame.setColumn, DataFrame.getColumn?, List.find?, numColumn,
        standardize, meanQ, varQ, Except.map, List.sum, List.foldr]
      all_goals exact fun h => absurd h (by decide))
    (by
      norm_num [MinMaxScaling.applyStore, runOnCopy, readRef, MinMaxScaling.apply_transformation, setFeatureColumns, sampleFrame,
        mmSample, DataFrame.setColumn, DataFrame.getColumn?, List.find?, numColumn,
        minmaxScale, listMin, listMax, Except.map, List.foldl]
      all_goals exact fun h => absurd h (by decide))
    (by decide)

/-- A three-row frame whose B column has the three categories x, y, z. -/
def sampleFrame3 : DataFrame :=
  ⟨[0, 1, 2], [("Area", [Value.num 1, Value.num 2, Value.num 3]),
               ("B", [Value.cat "x", Value.cat "y", Value.cat "z"])]⟩

/-- One-hot encoding of sampleFrame3 on B: reference category x dropped,
indicator columns B_y and B_z. -/
def ohSample3 : DataFrame :=
  ⟨[0, 1, 2], [("Area", [Value.num 1, Value.num 2, Value.num 3]),
               ("B_y", [Value.num 0, Value.num 1, Value.num 0]),
               ("B_z", [Value.num 0, Value.num 0, Value.num 1])]⟩

/-- C7 instantiated: encoding B with categories x, y, z gives the two
indicator columns B_y and B_z and drops B. -/
theorem onehot_category_counting_witness :
    (ohSample3.cols.filter (fun p =>
        ((encodeFeature "B" [Value.cat "x", Value.cat "y", Value.cat "z"]).map
          Prod.fst).contains p.1)).length
      = (categoriesOf [Value.cat "x", Value.cat "y", Value.cat "z"]).length - 1 ∧
    (∀ p ∈ ohSample3.cols,
        ((encodeFeature "B" [Value.cat "x", Value.cat "y", Value.cat "z"]).map
          Prod.fst).contains p.1 = true →
        ∀ v ∈ (Prod.snd p), v = Value.num 0 ∨ v = Value.num 1) ∧
    "B" ∉ ohSample3.columnNames ∧
    (categoriesOf [Value.cat "x", Value.cat "y", Value.cat "z"]).Nodup ∧
    (∀ a ∈ [Value.cat "x", Value.cat "y", Value.cat "z"],
        a ∈ categoriesOf [Value.cat "x", Value.cat "y", Value.cat "z"]) ∧
    (∀ a ∈ categoriesOf [Value.cat "x", Value.cat "y", Value.cat "z"],
        a ∈ [Value.cat "x", Value.cat "y", Value.cat "z"]) :=
  onehot_category_counting ⟨["B"]⟩ sampleFrame3 "B"
    [Value.cat "x", Value.cat "y", Value.cat "z"] ohSample3
    (by decide) (by decide) (by decide) (by decide) (by decide)

end HousePrice
